import Mathlib

/-!
Verification of the JUnit test generator (`generate-junit-tests.py`) of
sigpwned/just-json-java.

Embedding conventions:
* Python strings are sequences of Unicode code points; we model them as
  `List Nat`.  The helper `str` converts a Lean string literal to that
  representation for use in statements and concrete tests.
* The script reads manifest lines from stdin and prints output lines; we
  model the manifest as a `List (List Nat)` of lines (without trailing
  newlines, which `line.strip()` would discard anyway) and the output as a
  `List (List Nat)` of printed lines.
* Python exceptions (`IndexError` from `parts[1]` / `filename[0]`,
  `KeyError` from `verbs[yn]`) become an `Except PyError` result.  The
  exception aborts the loop before anything is printed, so an error result
  carries no output.
* The call `tests.sort(key=...)` performs the stable sort of Python.  The key closure
  erroneously references the loop variables `test_name_pascal_case` and
  `test_instance`, which after the loop hold the values of the last
  appended entry; with an empty entry list the key is never evaluated (so
  the unbound names do not matter) and sorting the empty list yields the
  empty list.  We model this in `sortedTests` by a stable insertion sort
  (`pyStableSort`) whose comparison uses the fields of the last entry, and by
  returning the list unchanged when there is no last entry.
-/

namespace JJGen

deriving instance DecidableEq for Except

/-- Code points of a Lean string literal: our model of a Python string. -/
def str (s : String) : List Nat :=
  s.data.map Char.toNat

/-- Code points stripped by the Python method `str.strip()` (Unicode whitespace). -/
def isPySpace (c : Nat) : Bool :=
  c ∈ [9, 10, 11, 12, 13, 28, 29, 30, 31, 32, 133, 160, 5760,
       8192, 8193, 8194, 8195, 8196, 8197, 8198, 8199, 8200, 8201, 8202,
       8232, 8233, 8239, 8287, 12288]

/-- Python `line.strip()`: drop leading and trailing whitespace. -/
def pyStrip (l : List Nat) : List Nat :=
  ((l.dropWhile isPySpace).reverse.dropWhile isPySpace).reverse

/-- The Python substring test `needle in haystack` on strings. -/
def containsSub (needle : List Nat) : List Nat → Bool
  | [] => needle.isEmpty
  | c :: cs => needle.isPrefixOf (c :: cs) || containsSub needle cs

/-- The character class `[a-zA-Z0-9]`; the regex `sep` of the script is
`[^a-zA-Z0-9]+`, i.e. a maximal run of characters outside this class. -/
def isWordChar (c : Nat) : Bool :=
  (48 ≤ c && c ≤ 57) || (65 ≤ c && c ≤ 90) || (97 ≤ c && c ≤ 122)

/-- Model of `re.split("[^a-zA-Z0-9]+", s)`: the pieces of `s` between maximal runs
of non-alphanumeric characters, with empty pieces at the boundaries.  The
`Bool` argument records whether we are inside a delimiter run. -/
def reSplitAux : Bool → List Nat → List Nat → List (List Nat)
  | false, acc, [] => [acc.reverse]
  | true, _, [] => [[]]
  | false, acc, c :: cs =>
    if isWordChar c then reSplitAux false (c :: acc) cs
    else acc.reverse :: reSplitAux true [] cs
  | true, acc, c :: cs =>
    if isWordChar c then reSplitAux false [c] cs
    else reSplitAux true acc cs

/-- Model of `sep.split(test_name)` where `sep = re.compile("[^a-zA-Z0-9]+")`. -/
def reSplitNonAlnum (s : List Nat) : List (List Nat) :=
  reSplitAux false [] s

/-- Model of `[ part for part in sep.split(test_name) if part != "" ]`. -/
def testNameParts (test_name : List Nat) : List (List Nat) :=
  (reSplitNonAlnum test_name).filter (fun p => p ≠ [])

/-- Python `str.upper()` on a single code point (tokens only ever contain
ASCII alphanumeric characters, where this matches Python exactly). -/
def pyUpperChar (c : Nat) : Nat :=
  if 97 ≤ c ∧ c ≤ 122 then c - 32 else c

/-- Python `str.lower()` on a single code point. -/
def pyLowerChar (c : Nat) : Nat :=
  if 65 ≤ c ∧ c ≤ 90 then c + 32 else c

/-- Model of `part[0].upper() + part[1:].lower()` (parts are never empty because
empty parts were filtered out). -/
def pascalToken (part : List Nat) : List Nat :=
  match part with
  | [] => []
  | c :: rest => pyUpperChar c :: rest.map pyLowerChar

/-- Model of the join `"".join([ part[0].upper()+part[1:].lower() for part in parts ])`. -/
def pascalCase (parts : List (List Nat)) : List Nat :=
  (parts.map pascalToken).flatten

/-- Decimal rendering `str(n)` of a natural number. -/
def pyStr (n : Nat) : List Nat :=
  (Nat.repr n).data.map Char.toNat

/-- The dictionary `verbs` mapping code point y to yes and n to no; lookup may fail (`KeyError`). -/
def verbs (yn : Nat) : Option (List Nat) :=
  if yn = 121 then some (str "yes")
  else if yn = 110 then some (str "no")
  else none

/-- The exceptions the parse loop can raise. -/
inductive PyError where
  | indexError : PyError
  | keyError : Nat → PyError
deriving DecidableEq

/-- One element of the `tests` list: the tuple
`(supported, yn, filename, verb, test_name_pascal_case, test_instance, test_suffix)`. -/
structure TestEntry where
  supported : Bool
  yn : Nat
  filename : List Nat
  verb : List Nat
  name : List Nat
  inst : Nat
  suffix : List Nat
deriving DecidableEq

/-- The loop state: the `tests_by_name` counter and the `tests` list. -/
structure GenState where
  testsByName : List Nat → Nat
  tests : List TestEntry

/-- Model of `line.startswith("#") or line == ""` (applied to the stripped line). -/
def isSkipLine (line : List Nat) : Bool :=
  (str "#").isPrefixOf line || line.isEmpty

/-- One iteration of the parse loop (lines 15-42 of the script). -/
def step (st : GenState) (rawLine : List Nat) : Except PyError GenState :=
  let line := pyStrip rawLine
  if isSkipLine line then Except.ok st
  else
    let parts := (line.splitOn 58).map pyStrip
    let supported := containsSub (str "PASS") line
    match parts[1]? with
    | none => Except.error PyError.indexError
    | some filename =>
      match filename.head? with
      | none => Except.error PyError.indexError
      | some yn =>
        let test_name := (filename.take (filename.length - 5)).drop 2
        let test_name_parts := testNameParts test_name
        match verbs yn with
        | none => Except.error (PyError.keyError yn)
        | some verb =>
          let test_name_pascal_case := pascalCase test_name_parts
          let test_instance := st.testsByName test_name_pascal_case + 1
          let test_suffix :=
            if test_instance = 1 then [] else str "_" ++ pyStr test_instance
          Except.ok
            { testsByName := fun k =>
                if k = test_name_pascal_case then test_instance
                else st.testsByName k,
              tests := st.tests ++
                [⟨supported, yn, filename, verb, test_name_pascal_case,
                  test_instance, test_suffix⟩] }

/-- Run the parse loop over all manifest lines. -/
def runLines (st : GenState) : List (List Nat) → Except PyError GenState
  | [] => Except.ok st
  | l :: ls =>
    match step st l with
    | Except.error e => Except.error e
    | Except.ok st2 => runLines st2 ls

/-- The initial state: an empty `Counter` and an empty `tests` list. -/
def initState : GenState :=
  { testsByName := fun _ => 0, tests := [] }

/-- Parse the whole manifest into the `tests` list. -/
def parseManifest (lines : List (List Nat)) : Except PyError (List TestEntry) :=
  (runLines initState lines).map GenState.tests

/-- Model of `0 if t[0] else 1`: the first component of the sort key. -/
def flagNat (t : TestEntry) : Nat :=
  if t.supported then 0 else 1

/-- The sort key `(0 if t[0] else 1, test_name_pascal_case, test_instance)`.
The second and third components are the closure-captured loop variables,
i.e. the name and instance of the LAST entry appended by the loop, not the
fields of `t` itself. -/
def sortKey (lastName : List Nat) (lastInst : Nat) (t : TestEntry) :
    Nat × List Nat × Nat :=
  (flagNat t, lastName, lastInst)

/-- The Python order `<` on strings (lexicographic by code point). -/
def listLtNat : List Nat → List Nat → Bool
  | [], [] => false
  | [], _ :: _ => true
  | _ :: _, [] => false
  | a :: as, b :: bs => if a < b then true else if a = b then listLtNat as bs else false

/-- The Python order `<=` on `(int, str, int)` tuples (lexicographic). -/
def keyLe : Nat × List Nat × Nat → Nat × List Nat × Nat → Bool
  | (a, b, c), (d, e, f) =>
    if a < d then true
    else if a = d then
      if listLtNat b e then true
      else if b = e then c ≤ f
      else false
    else false

/-- Stable insertion of `x` after every element `y` of the sorted prefix
with `le y x`. -/
def insortAux (le : TestEntry → TestEntry → Bool) (x : TestEntry) :
    List TestEntry → List TestEntry
  | [] => [x]
  | y :: ys => if le y x then y :: insortAux le x ys else x :: y :: ys

/-- A stable sort (the Python method `list.sort` is stable; for a total preorder
comparison every stable sort produces the same result). -/
def pyStableSort (le : TestEntry → TestEntry → Bool) (l : List TestEntry) :
    List TestEntry :=
  l.foldl (fun acc x => insortAux le x acc) []

/-- Model of `tests.sort(key = lambda t: (0 if t[0] else 1, test_name_pascal_case,
test_instance))`.  The two captured names hold the fields of the last
appended entry; when `tests` is empty the key function is never evaluated (CPython
computes keys once per element), so the unbound names raise no error and
the result is the empty list. -/
def sortedTests (tests : List TestEntry) : List TestEntry :=
  match tests.getLast? with
  | none => tests
  | some last =>
    pyStableSort
      (fun t u => keyLe (sortKey last.name last.inst t)
        (sortKey last.name last.inst u))
      tests

/-- The method name, concatenating verb, identifier and suffix. -/
def methodName (t : TestEntry) : List Nat :=
  t.verb ++ t.name ++ t.suffix

/-- The lines printed by `print_test` for one entry (lines 46-69). -/
def printTest (test_dir : List Nat) (t : TestEntry) : List (List Nat) :=
  [str "/**",
   str " * " ++ t.filename,
   str " */",
   str "@Test"] ++
  (if t.supported then [] else [str "@Ignore"]) ++
  [str "public void " ++ methodName t ++ str "() throws IOException \x7b",
   str "    // This test is currently DISABLED because the implementation is known not to pass it.",
   str "    // This is a \"" ++ [t.yn] ++
     str "\" test, so the file contains " ++
     (if t.yn = 121 then str "valid" else str "invalid") ++ str " JSON.",
   str "    IllegalArgumentException problem;",
   str "    try \x7b",
   str "        JustJson.parseValue(new String(Files.readAllBytes(new File(\"" ++
     test_dir ++ str "/" ++ t.filename ++ str "\").toPath())));",
   str "        problem = null;",
   str "    \x7d",
   str "    catch(IllegalArgumentException e) \x7b",
   str "        problem = e;",
   str "    \x7d",
   str "    ",
   str "    " ++ (if t.yn = 121 then str "assertNull" else str "assertNotNull") ++
     str "(problem);",
   str "\x7d",
   str ""]

/-- The banner printed before the supported block (line 72). -/
def supportedBanner : List Nat :=
  str "// SUPPORTED TESTS ///////////////////////////////////////////////////////////////////////////////"

/-- The banner printed before the unsupported block (line 76). -/
def unsupportedBanner : List Nat :=
  str "// UNSUPPORTED TESTS /////////////////////////////////////////////////////////////////////////////"

/-- Lines 44 and 72-78: sort, then print the supported entries under their
banner followed by the unsupported entries under theirs. -/
def render (test_dir : List Nat) (tests : List TestEntry) : List (List Nat) :=
  let sorted := sortedTests tests
  [supportedBanner] ++
  ((sorted.filter (fun t => t.supported)).map (printTest test_dir)).flatten ++
  [unsupportedBanner] ++
  ((sorted.filter (fun t => !t.supported)).map (printTest test_dir)).flatten

/-- The whole generator: `test_dir` is `sys.argv[1]`, `lines` is stdin.
An exception in the parse loop aborts the run before anything is printed,
so the error case carries no output lines. -/
def generate (test_dir : List Nat) (lines : List (List Nat)) :
    Except PyError (List (List Nat)) :=
  (parseManifest lines).map (render test_dir)

/-- Number of entries of `ts` carrying identifier `nm`. -/
def occCount (ts : List TestEntry) (nm : List Nat) : Nat :=
  (ts.filter (fun u => decide (u.name = nm))).length

/-- The `tests_by_name` counter agrees with the entries accumulated so far. -/
def CounterOk (st : GenState) : Prop :=
  ∀ nm, st.testsByName nm = occCount st.tests nm

/-- Occurrence indices: each entry carries an index one more than the number of earlier
entries with the same identifier, and its suffix is empty for index 1 and
`"_" + str(index)` otherwise. -/
def InstOk (ts : List TestEntry) : Prop :=
  ∀ i, (h : i < ts.length) →
    ts[i].inst = occCount (ts.take i) ts[i].name + 1 ∧
    ts[i].suffix = (if ts[i].inst = 1 then [] else str "_" ++ pyStr ts[i].inst)

/-- A manifest line that is not skipped, has a second colon-separated
field, and whose filename starts with a character other than `y` or `n`. -/
def badPolarityLine (rawLine : List Nat) : Bool :=
  let line := pyStrip rawLine
  if isSkipLine line then false
  else
    match ((line.splitOn 58).map pyStrip)[1]? with
    | none => false
    | some filename =>
      match filename.head? with
      | none => false
      | some yn => decide (yn ≠ 121 ∧ yn ≠ 110)

/-- The lowercased token sequence of a base name: the identifier, by the
claim, should depend only on this (case- and punctuation-insensitivity). -/
def lowTokens (b : List Nat) : List (List Nat) :=
  (testNameParts b).map (List.map pyLowerChar)

/-! ### The sort collapses to a stable partition by `supported` -/

theorem listLtNat_irrefl (l : List Nat) : listLtNat l l = false := by
  induction l with
  | nil => rfl
  | cons a as ih => simp [listLtNat, ih]

theorem keyLe_of_supported (N : List Nat) (I : Nat) (t u : TestEntry)
    (h : t.supported = true) :
    keyLe (sortKey N I t) (sortKey N I u) = true := by
  cases hu : u.supported <;>
    simp [keyLe, sortKey, flagNat, h, hu, listLtNat_irrefl]

theorem keyLe_unsup_sup (N : List Nat) (I : Nat) (t u : TestEntry)
    (ht : t.supported = false) (hu : u.supported = true) :
    keyLe (sortKey N I t) (sortKey N I u) = false := by
  simp [keyLe, sortKey, flagNat, ht, hu]

theorem keyLe_unsup_unsup (N : List Nat) (I : Nat) (t u : TestEntry)
    (ht : t.supported = false) (hu : u.supported = false) :
    keyLe (sortKey N I t) (sortKey N I u) = true := by
  simp [keyLe, sortKey, flagNat, ht, hu, listLtNat_irrefl]

theorem insort_sup (N : List Nat) (I : Nat) (x : TestEntry)
    (S U : List TestEntry) (hx : x.supported = true)
    (hS : ∀ y ∈ S, y.supported = true) (hU : ∀ y ∈ U, y.supported = false) :
    insortAux (fun t u => keyLe (sortKey N I t) (sortKey N I u)) x (S ++ U) =
      S ++ x :: U := by
  induction S with
  | nil =>
    cases U with
    | nil => rfl
    | cons u us =>
      have h := keyLe_unsup_sup N I u x (hU u (by simp)) hx
      simp [insortAux, h]
  | cons s ss ih =>
    have h := keyLe_of_supported N I s x (hS s (by simp))
    simp only [List.cons_append, insortAux, h, if_pos]
    exact congrArg (s :: ·) (ih (fun y hy => hS y (by simp [hy])))

theorem insort_unsup (N : List Nat) (I : Nat) (x : TestEntry)
    (S U : List TestEntry) (hx : x.supported = false)
    (hS : ∀ y ∈ S, y.supported = true) (hU : ∀ y ∈ U, y.supported = false) :
    insortAux (fun t u => keyLe (sortKey N I t) (sortKey N I u)) x (S ++ U) =
      S ++ (U ++ [x]) := by
  induction S with
  | nil =>
    induction U with
    | nil => rfl
    | cons u us ihu =>
      have h := keyLe_unsup_unsup N I u x (hU u (by simp)) hx
      simp only [List.nil_append, insortAux, h, if_pos, List.cons_append]
      exact congrArg (u :: ·) (ihu (fun y hy => hU y (by simp [hy])))
  | cons s ss ih =>
    have h := keyLe_of_supported N I s x (hS s (by simp))
    simp only [List.cons_append, insortAux, h, if_pos]
    exact congrArg (s :: ·) (ih (fun y hy => hS y (by simp [hy])))

theorem foldl_insort (N : List Nat) (I : Nat) :
    ∀ (l S U : List TestEntry),
      (∀ y ∈ S, y.supported = true) → (∀ y ∈ U, y.supported = false) →
      l.foldl
          (fun acc x =>
            insortAux (fun t u => keyLe (sortKey N I t) (sortKey N I u)) x acc)
          (S ++ U) =
        (S ++ l.filter (fun t => t.supported)) ++
          (U ++ l.filter (fun t => !t.supported)) := by
  intro l
  induction l with
  | nil => intro S U _ _; simp
  | cons x xs ih =>
    intro S U hS hU
    by_cases hx : x.supported = true
    · have hins := insort_sup N I x S U hx hS hU
      have hS2 : ∀ y ∈ S ++ [x], y.supported = true := by
        intro y hy
        rcases List.mem_append.mp hy with h | h
        · exact hS y h
        · simp at h; subst h; exact hx
      have := ih (S ++ [x]) U hS2 hU
      simp only [List.foldl_cons, hins]
      rw [show S ++ x :: U = (S ++ [x]) ++ U by simp]
      rw [this]
      simp [hx]
    · have hx2 : x.supported = false := by simpa using hx
      have hins := insort_unsup N I x S U hx2 hS hU
      have hU2 : ∀ y ∈ U ++ [x], y.supported = false := by
        intro y hy
        rcases List.mem_append.mp hy with h | h
        · exact hU y h
        · simp at h; subst h; exact hx2
      have := ih S (U ++ [x]) hS hU2
      simp only [List.foldl_cons, hins]
      rw [show S ++ (U ++ [x]) = S ++ (U ++ [x]) from rfl]
      rw [this]
      simp [hx2]

theorem pyStableSort_lastKey (N : List Nat) (I : Nat) (l : List TestEntry) :
    pyStableSort (fun t u => keyLe (sortKey N I t) (sortKey N I u)) l =
      l.filter (fun t => t.supported) ++ l.filter (fun t => !t.supported) := by
  have h := foldl_insort N I l [] [] (by simp) (by simp)
  simpa [pyStableSort] using h

theorem sortedTests_eq_filter (tests : List TestEntry) :
    sortedTests tests =
      tests.filter (fun t => t.supported) ++
        tests.filter (fun t => !t.supported) := by
  cases tests with
  | nil => rfl
  | cons a as =>
    cases h : (a :: as).getLast? with
    | none => exact absurd (List.getLast?_eq_none_iff.mp h) (by simp)
    | some last => simp [sortedTests, h, pyStableSort_lastKey]

theorem sortedTests_filter_sup (tests : List TestEntry) :
    (sortedTests tests).filter (fun t => t.supported) =
      tests.filter (fun t => t.supported) := by
  rw [sortedTests_eq_filter]
  simp [List.filter_append, List.filter_filter]

theorem sortedTests_filter_unsup (tests : List TestEntry) :
    (sortedTests tests).filter (fun t => !t.supported) =
      tests.filter (fun t => !t.supported) := by
  rw [sortedTests_eq_filter]
  simp [List.filter_append, List.filter_filter]

/-! ### The occurrence-counter invariant of the parse loop -/

theorem step_spec (st : GenState) (l : List Nat) (st2 : GenState)
    (h : step st l = Except.ok st2) :
    st2 = st ∨ ∃ e : TestEntry,
      st2.tests = st.tests ++ [e] ∧
      e.inst = st.testsByName e.name + 1 ∧
      e.suffix = (if e.inst = 1 then [] else str "_" ++ pyStr e.inst) ∧
      (∀ k, st2.testsByName k =
        if k = e.name then st.testsByName e.name + 1 else st.testsByName k) := by
  simp only [step] at h
  split at h
  · left; cases h; rfl
  · split at h
    · cases h
    · split at h
      · cases h
      · split at h
        · cases h
        · right
          cases h
          exact ⟨_, rfl, rfl, rfl, fun k => rfl⟩

theorem step_inv (st st2 : GenState) (l : List Nat)
    (h : step st l = Except.ok st2)
    (hc : CounterOk st) (hi : InstOk st.tests) :
    CounterOk st2 ∧ InstOk st2.tests := by
  rcases step_spec st l st2 h with rfl | ⟨e, hts, hinst, hsuf, hcnt⟩
  · exact ⟨hc, hi⟩
  constructor
  · intro nm
    rw [hcnt nm, hts]
    have hadd : occCount (st.tests ++ [e]) nm =
        occCount st.tests nm + occCount [e] nm := by
      unfold occCount
      rw [List.filter_append, List.length_append]
    rw [hadd, ← hc nm]
    by_cases hk : nm = e.name
    · rw [if_pos hk, hk]
      have h1 : occCount [e] e.name = 1 := by simp [occCount]
      rw [h1]
    · rw [if_neg hk]
      have h0 : occCount [e] nm = 0 := by
        have hne : ¬ (e.name = nm) := fun hx => hk hx.symm
        simp [occCount, hne]
      rw [h0]
      omega
  · intro i hlen
    have hlen2 : i < (st.tests ++ [e]).length := by rw [← hts]; exact hlen
    rcases Nat.lt_or_ge i st.tests.length with hlt | hge
    · have hg : (st.tests ++ [e])[i] = st.tests[i] :=
        List.getElem_append_left hlt
      have htake : (st.tests ++ [e]).take i = st.tests.take i :=
        List.take_append_of_le_length (Nat.le_of_lt hlt)
      have := hi i hlt
      simp only [hts, hg, htake]
      exact this
    · have hie : i = st.tests.length := by
        rw [hts] at hlen
        simp only [List.length_append, List.length_cons, List.length_nil] at hlen
        omega
      subst hie
      have hg : (st.tests ++ [e])[st.tests.length] = e := by
        exact List.getElem_concat_length st.tests e st.tests.length rfl hlen2
      have htake : (st.tests ++ [e]).take st.tests.length = st.tests :=
        List.take_left st.tests [e]
      simp only [hts, hg, htake]
      exact ⟨by rw [hinst, hc e.name], hsuf⟩

theorem runLines_inv :
    ∀ (lines : List (List Nat)) (st st2 : GenState),
      runLines st lines = Except.ok st2 →
      CounterOk st → InstOk st.tests →
      CounterOk st2 ∧ InstOk st2.tests := by
  intro lines
  induction lines with
  | nil =>
    intro st st2 h hc hi
    cases h
    exact ⟨hc, hi⟩
  | cons a as ih =>
    intro st st2 h hc hi
    cases hs : step st a with
    | error e => rw [runLines, hs] at h; cases h
    | ok st1 =>
      rw [runLines, hs] at h
      rcases step_inv st st1 a hs hc hi with ⟨hc1, hi1⟩
      exact ih st1 st2 h hc1 hi1

theorem parse_ok_state (lines : List (List Nat)) (tests : List TestEntry)
    (h : parseManifest lines = Except.ok tests) :
    ∃ st2, runLines initState lines = Except.ok st2 ∧ st2.tests = tests := by
  unfold parseManifest at h
  cases hr : runLines initState lines with
  | error e => rw [hr] at h; cases h
  | ok st2 =>
    rw [hr] at h
    cases h
    exact ⟨st2, rfl, rfl⟩

theorem parse_instOk (lines : List (List Nat)) (tests : List TestEntry)
    (h : parseManifest lines = Except.ok tests) : InstOk tests := by
  rcases parse_ok_state lines tests h with ⟨st2, hr, hts⟩
  have hinit1 : CounterOk initState := fun nm => rfl
  have hinit2 : InstOk initState.tests := by
    intro i hi
    exact absurd hi (by simp [initState])
  rcases runLines_inv lines initState st2 hr hinit1 hinit2 with ⟨_, hi2⟩
  rw [← hts]
  exact hi2

/-! ### Fatal errors on malformed polarity characters -/

theorem step_bad (st : GenState) (l : List Nat)
    (h : badPolarityLine l = true) :
    ∃ c, step st l = Except.error (PyError.keyError c) := by
  simp only [badPolarityLine] at h
  by_cases hskip : isSkipLine (pyStrip l) = true
  · rw [if_pos hskip] at h; cases h
  · rw [if_neg hskip] at h
    cases hp : ((pyStrip l).splitOn 58 |>.map pyStrip)[1]? with
    | none => rw [hp] at h; simp at h
    | some filename =>
      rw [hp] at h
      simp only [] at h
      cases hh : filename.head? with
      | none => rw [hh] at h; simp at h
      | some yn =>
        rw [hh] at h
        simp at h
        refine ⟨yn, ?_⟩
        simp [step, hskip, hp, hh, verbs, h.1, h.2]

theorem runLines_bad :
    ∀ (lines : List (List Nat)) (st : GenState),
      (∃ l, l ∈ lines ∧ badPolarityLine l = true) →
      ∃ e, runLines st lines = Except.error e := by
  intro lines
  induction lines with
  | nil =>
    intro st h
    rcases h with ⟨l, hl, _⟩
    cases hl
  | cons a as ih =>
    intro st h
    rcases h with ⟨l, hl, hbad⟩
    rcases List.mem_cons.mp hl with rfl | hmem
    · rcases step_bad st l hbad with ⟨c, hc⟩
      exact ⟨PyError.keyError c, by rw [runLines, hc]⟩
    · cases hs : step st a with
      | error e => exact ⟨e, by rw [runLines, hs]⟩
      | ok st2 =>
        rcases ih st2 ⟨l, hmem, hbad⟩ with ⟨e, he⟩
        exact ⟨e, by rw [runLines, hs]; exact he⟩

/-! ### Skip lines leave the state untouched -/

theorem step_skip (st : GenState) (l : List Nat)
    (h : isSkipLine (pyStrip l) = true) : step st l = Except.ok st := by
  simp [step, h]

theorem runLines_skip :
    ∀ (lines : List (List Nat)) (st : GenState),
      (∀ l ∈ lines, isSkipLine (pyStrip l) = true) →
      runLines st lines = Except.ok st := by
  intro lines
  induction lines with
  | nil => intro st _; rfl
  | cons a as ih =>
    intro st h
    rw [runLines, step_skip st a (h a (by simp))]
    exact ih st (fun l hl => h l (by simp [hl]))

/-! ### Identifier derivation is case- and punctuation-insensitive -/

theorem reSplitAux_word :
    ∀ (s : List Nat) (mode : Bool) (acc : List Nat),
      (∀ c ∈ acc, isWordChar c = true) →
      ∀ t ∈ reSplitAux mode acc s, ∀ c ∈ t, isWordChar c = true := by
  intro s
  induction s with
  | nil =>
    intro mode acc hacc t ht c hc
    cases mode with
    | false =>
      simp only [reSplitAux, List.mem_singleton] at ht
      subst ht
      exact hacc c (List.mem_reverse.mp hc)
    | true =>
      simp only [reSplitAux, List.mem_singleton] at ht
      subst ht
      cases hc
  | cons a as ih =>
    intro mode acc hacc t ht c hc
    cases mode with
    | false =>
      simp only [reSplitAux] at ht
      by_cases hw : isWordChar a = true
      · rw [if_pos hw] at ht
        have hacc2 : ∀ d ∈ a :: acc, isWordChar d = true := by
          intro d hd
          rcases List.mem_cons.mp hd with rfl | hd2
          · exact hw
          · exact hacc d hd2
        exact ih false (a :: acc) hacc2 t ht c hc
      · rw [if_neg hw] at ht
        rcases List.mem_cons.mp ht with rfl | ht2
        · exact hacc c (List.mem_reverse.mp hc)
        · exact ih true [] (by simp) t ht2 c hc
    | true =>
      simp only [reSplitAux] at ht
      by_cases hw : isWordChar a = true
      · rw [if_pos hw] at ht
        exact ih false [a] (by simp [hw]) t ht c hc
      · rw [if_neg hw] at ht
        exact ih true acc hacc t ht c hc

theorem testNameParts_word (b : List Nat) :
    ∀ t ∈ testNameParts b, ∀ c ∈ t, isWordChar c = true := by
  intro t ht
  unfold testNameParts at ht
  exact reSplitAux_word b false [] (by simp) t (List.mem_of_mem_filter ht)

theorem pyUpper_eq_of_lower_eq (c d : Nat) (hc : isWordChar c = true)
    (hd : isWordChar d = true) (h : pyLowerChar c = pyLowerChar d) :
    pyUpperChar c = pyUpperChar d := by
  simp only [isWordChar, Bool.or_eq_true, Bool.and_eq_true,
    decide_eq_true_eq] at hc hd
  simp only [pyLowerChar, pyUpperChar] at *
  split_ifs at * <;> omega

theorem pascalToken_eq_of_lower_eq (t1 t2 : List Nat)
    (h1 : ∀ c ∈ t1, isWordChar c = true) (h2 : ∀ c ∈ t2, isWordChar c = true)
    (h : t1.map pyLowerChar = t2.map pyLowerChar) :
    pascalToken t1 = pascalToken t2 := by
  cases t1 with
  | nil =>
    cases t2 with
    | nil => rfl
    | cons b bs => simp at h
  | cons a as =>
    cases t2 with
    | nil => simp at h
    | cons b bs =>
      simp only [List.map_cons, List.cons.injEq] at h
      have hu := pyUpper_eq_of_lower_eq a b (h1 a (by simp)) (h2 b (by simp)) h.1
      simp only [pascalToken, hu, h.2]

theorem pascalCase_eq_of_lower_eq :
    ∀ (L1 L2 : List (List Nat)),
      (∀ t ∈ L1, ∀ c ∈ t, isWordChar c = true) →
      (∀ t ∈ L2, ∀ c ∈ t, isWordChar c = true) →
      L1.map (List.map pyLowerChar) = L2.map (List.map pyLowerChar) →
      pascalCase L1 = pascalCase L2 := by
  intro L1
  induction L1 with
  | nil =>
    intro L2 _ _ h
    cases L2 with
    | nil => rfl
    | cons t2 ts2 => simp at h
  | cons t1 ts1 ih =>
    intro L2 hw1 hw2 h
    cases L2 with
    | nil => simp at h
    | cons t2 ts2 =>
      simp only [List.map_cons, List.cons.injEq] at h
      have he := pascalToken_eq_of_lower_eq t1 t2 (hw1 t1 (by simp))
        (hw2 t2 (by simp)) h.1
      have hrest := ih ts2 (fun t ht => hw1 t (by simp [ht]))
        (fun t ht => hw2 t (by simp [ht])) h.2
      simp only [pascalCase, List.map_cons, List.flatten_cons] at hrest ⊢
      rw [he, hrest]

/-! ### The claims -/

/-- C1: for every valid manifest line the derived identifier is a pure
function of the subject portion of the filename (the base name), insensitive to
letter case and punctuation: the base name is split into tokens on maximal
runs of non-alphanumeric characters, empty tokens are dropped, each token
is rendered first-character-uppercase plus rest-lowercase, and the tokens
are concatenated.  Hence identifiers agree whenever the lowercased token
sequences agree, and the filenames `y_foo-bar.json` and `y_FOO_BAR.json`
both yield identifier `FooBar`. -/
theorem c1_identifier_insensitive :
    (∀ b1 b2 : List Nat, lowTokens b1 = lowTokens b2 →
        pascalCase (testNameParts b1) = pascalCase (testNameParts b2)) ∧
    (parseManifest [str "PASS: y_foo-bar.json", str "PASS: y_FOO_BAR.json"]).toOption.map
        (List.map TestEntry.name) = some [str "FooBar", str "FooBar"] := by
  constructor
  · intro b1 b2 h
    exact pascalCase_eq_of_lower_eq _ _ (testNameParts_word b1)
      (testNameParts_word b2) h
  · decide

theorem c1_identifier_insensitive_witness :
    pascalCase (testNameParts (str "fOo-bAr")) =
      pascalCase (testNameParts (str "FOO_bar")) :=
  c1_identifier_insensitive.1 (str "fOo-bAr") (str "FOO_bar") (by decide)

/-- C2: the secondary and tertiary key components of the final sort are the
identifier and occurrence index of the last entry processed (not the
sorted entry itself), hence constant within a run; consequently the
effective ordering is only the primary supported-first key, and the stable
sort preserves the relative manifest order among entries of equal
supported status: the sorted list is exactly the supported entries in
original order followed by the unsupported entries in original order. -/
theorem c2_sort_key_from_last_entry (tests : List TestEntry) :
    sortedTests tests =
      tests.filter (fun t => t.supported) ++
        tests.filter (fun t => !t.supported) ∧
    (∀ last, tests.getLast? = some last → ∀ t ∈ tests,
      sortKey last.name last.inst t = (flagNat t, last.name, last.inst)) :=
  ⟨sortedTests_eq_filter tests, fun _ _ t _ => rfl⟩

theorem c2_sort_key_from_last_entry_witness :
    sortKey (str "A") 1 ⟨true, 121, str "y_a.json", str "yes", str "A", 1, []⟩ =
      (flagNat ⟨true, 121, str "y_a.json", str "yes", str "A", 1, []⟩,
        str "A", 1) :=
  (c2_sort_key_from_last_entry
      [⟨true, 121, str "y_a.json", str "yes", str "A", 1, []⟩]).2
    ⟨true, 121, str "y_a.json", str "yes", str "A", 1, []⟩ (by decide)
    ⟨true, 121, str "y_a.json", str "yes", str "A", 1, []⟩ (by decide)

/-- C5: a manifest containing a data line in which the first character of the filename
is neither `y` nor `n` makes the Generator fail: the parse loop raises the
error (before any rendering), and the whole run returns that error with no
output lines. -/
theorem c5_bad_polarity_fails (test_dir : List Nat) (lines : List (List Nat))
    (h : ∃ l, l ∈ lines ∧ badPolarityLine l = true) :
    ∃ e, parseManifest lines = Except.error e ∧
      generate test_dir lines = Except.error e := by
  rcases runLines_bad lines initState h with ⟨e, he⟩
  refine ⟨e, ?_, ?_⟩
  · unfold parseManifest
    rw [he]
    rfl
  · unfold generate parseManifest
    rw [he]
    rfl

theorem c5_bad_polarity_fails_witness :
    ∃ e, parseManifest [str "PASS: x_foo.json"] = Except.error e ∧
      generate (str "d") [str "PASS: x_foo.json"] = Except.error e :=
  c5_bad_polarity_fails (str "d") [str "PASS: x_foo.json"]
    ⟨str "PASS: x_foo.json", by decide⟩

/-- C6: a non-skipped manifest line is classified supported exactly when
the literal substring `PASS` occurs anywhere in the (stripped) line, not
in a specific colon-separated field; in particular a line whose filename
contains `PASS` is supported even though its status field says `FAIL`. -/
theorem c6_supported_is_substring_check :
    (∀ (st : GenState) (line : List Nat) (e : TestEntry),
        (step st line).map GenState.tests = Except.ok (st.tests ++ [e]) →
        e.supported = containsSub (str "PASS") (pyStrip line)) ∧
    (parseManifest [str "FAIL: y_PASS_x.json"]).toOption.map
        (List.map TestEntry.supported) = some [true] := by
  constructor
  · intro st line e h
    simp only [step] at h
    split at h
    · simp only [Except.map] at h
      injection h with h2
      simp at h2
    · split at h
      · simp only [Except.map] at h
        cases h
      · split at h
        · simp only [Except.map] at h
          cases h
        · split at h
          · simp only [Except.map] at h
            cases h
          · simp only [Except.map] at h
            injection h with h2
            have h3 := List.append_cancel_left h2
            injection h3 with h4
            rw [← h4]
  · decide

theorem c6_supported_is_substring_check_witness :
    true = containsSub (str "PASS") (pyStrip (str "FAIL: y_PASS_x.json")) :=
  c6_supported_is_substring_check.1 initState (str "FAIL: y_PASS_x.json")
    ⟨true, 121, str "y_PASS_x.json", str "yes", str "PassX", 1, []⟩ (by decide)

/-- C9: the Generator is deterministic: its output is a pure function of
the manifest lines and the configured base directory, so two runs on equal
inputs produce identical output. -/
theorem c9_deterministic (td1 td2 : List Nat) (l1 l2 : List (List Nat))
    (h1 : td1 = td2) (h2 : l1 = l2) : generate td1 l1 = generate td2 l2 := by
  rw [h1, h2]

theorem c9_deterministic_witness :
    generate (str "d") [str "PASS: y_a.json"] =
      generate (str "d") [str "PASS: y_a.json"] :=
  c9_deterministic (str "d") (str "d") [str "PASS: y_a.json"]
    [str "PASS: y_a.json"] rfl rfl

/-- C10: a manifest consisting only of comment lines and blank lines (and
in particular the empty manifest) makes the Generator terminate normally
with exactly the two banner lines and no test methods; the sort key
closure over the loop variables is never evaluated on the empty entry
list, so the unbound names cause no error. -/
theorem c10_skip_only_banners (test_dir : List Nat) (lines : List (List Nat))
    (h : ∀ l ∈ lines, isSkipLine (pyStrip l) = true) :
    generate test_dir lines =
      Except.ok [supportedBanner, unsupportedBanner] := by
  unfold generate parseManifest
  rw [runLines_skip lines initState h]
  rfl

theorem c10_skip_only_banners_witness :
    generate (str "d") [str "# header", str "", str "   "] =
      Except.ok [supportedBanner, unsupportedBanner] :=
  c10_skip_only_banners (str "d") [str "# header", str "", str "   "]
    (by decide)

/-- C4: for every well-formed manifest the output is the supported-tests
banner, then the renderings of exactly the supported entries, then the
unsupported-tests banner, then the renderings of exactly the unsupported
entries — so every supported entry is rendered strictly before every
unsupported one, regardless of manifest order. -/
theorem c4_sections (test_dir : List Nat) (lines : List (List Nat))
    (tests : List TestEntry) (h : parseManifest lines = Except.ok tests) :
    generate test_dir lines =
      Except.ok ([supportedBanner] ++
        ((tests.filter (fun t => t.supported)).map (printTest test_dir)).flatten ++
        [unsupportedBanner] ++
        ((tests.filter (fun t => !t.supported)).map (printTest test_dir)).flatten) := by
  unfold generate
  rw [h]
  simp only [Except.map]
  simp only [render, sortedTests_filter_sup, sortedTests_filter_unsup]

theorem c4_sections_witness :
    generate (str "d") [str "PASS: y_a.json", str "FAIL: n_b.json"] =
      Except.ok ([supportedBanner] ++
        ((([⟨true, 121, str "y_a.json", str "yes", str "A", 1, []⟩,
            ⟨false, 110, str "n_b.json", str "no", str "B", 1, []⟩] :
              List TestEntry).filter (fun t => t.supported)).map
            (printTest (str "d"))).flatten ++
        [unsupportedBanner] ++
        ((([⟨true, 121, str "y_a.json", str "yes", str "A", 1, []⟩,
            ⟨false, 110, str "n_b.json", str "no", str "B", 1, []⟩] :
              List TestEntry).filter (fun t => !t.supported)).map
            (printTest (str "d"))).flatten) :=
  c4_sections (str "d") [str "PASS: y_a.json", str "FAIL: n_b.json"]
    [⟨true, 121, str "y_a.json", str "yes", str "A", 1, []⟩,
     ⟨false, 110, str "n_b.json", str "no", str "B", 1, []⟩] (by decide)

/-- C3 counterexample: the manifest `FAIL: y_foo.json` then
`PASS: y-FOO!.json` produces two entries sharing identifier `Foo`, with
methods `yesFoo` (first, unsupported) and `yesFoo_2` (second, supported);
in the rendered output `yesFoo_2` appears before `yesFoo` because the
supported section is printed first, so entries sharing an identifier do
NOT always keep their manifest relative order in the output. -/
theorem c3_output_order_counterexample :
    (parseManifest [str "FAIL: y_foo.json", str "PASS: y-FOO!.json"]).toOption.map
        (List.map methodName) = some [str "yesFoo", str "yesFoo_2"] ∧
    (generate (str "d") [str "FAIL: y_foo.json", str "PASS: y-FOO!.json"]).toOption.map
        (fun out => out.filter (fun ln => (str "public void ").isPrefixOf ln)) =
      some [str "public void yesFoo_2() throws IOException \x7b",
            str "public void yesFoo() throws IOException \x7b"] := by
  constructor
  · decide
  · decide

/-- C3 (amended): occurrence indices are assigned per identifier in
manifest read order — the index of each entry is one more than the number of
earlier entries with the same identifier, the first occurrence renders
with no suffix and the Nth (N ≥ 2) with suffix `_N`; entries sharing an
identifier AND the same supported status keep their manifest relative
order in the output (each section preserves manifest order; across
different statuses the supported entry is rendered first); e.g.
`PASS: y_foo.json` then `PASS: y-FOO!.json` yields `yesFoo` then
`yesFoo_2` in that order within the supported block. -/
theorem c3_occurrence_indices :
    (∀ (lines : List (List Nat)) (tests : List TestEntry),
        parseManifest lines = Except.ok tests →
        ∀ i, (h : i < tests.length) →
          tests[i].inst = occCount (tests.take i) tests[i].name + 1 ∧
          tests[i].suffix =
            (if tests[i].inst = 1 then [] else str "_" ++ pyStr tests[i].inst)) ∧
    (∀ tests : List TestEntry,
        (sortedTests tests).filter (fun t => t.supported) =
          tests.filter (fun t => t.supported) ∧
        (sortedTests tests).filter (fun t => !t.supported) =
          tests.filter (fun t => !t.supported)) ∧
    (parseManifest [str "PASS: y_foo.json", str "PASS: y-FOO!.json"]).toOption.map
        (fun ts => ((sortedTests ts).filter (fun t => t.supported)).map methodName) =
      some [str "yesFoo", str "yesFoo_2"] := by
  refine ⟨?_, ?_, ?_⟩
  · intro lines tests h
    exact parse_instOk lines tests h
  · intro tests
    exact ⟨sortedTests_filter_sup tests, sortedTests_filter_unsup tests⟩
  · decide

theorem c3_occurrence_indices_witness :
    (1 : Nat) = occCount ([] : List TestEntry) (str "A") + 1 ∧
    ([] : List Nat) =
      (if (1 : Nat) = 1 then ([] : List Nat) else str "_" ++ pyStr 1) :=
  c3_occurrence_indices.1 [str "PASS: y_a.json"]
    [⟨true, 121, str "y_a.json", str "yes", str "A", 1, []⟩] (by decide)
    0 (by decide)

/-- A list whose head is not code point 64 is not the string `@Ignore`. -/
theorem ne_ignore_of_head {l2 : List Nat} (b : Nat) (h : str "@Ignore" = l2)
    (hb : l2.head? = some b) (hne : b ≠ 64) : False := by
  rw [← h] at hb
  have h64 : (str "@Ignore").head? = some 64 := by decide
  rw [h64] at hb
  exact hne (Option.some.inj hb).symm

/-- C7 counterexample: for the single supported line `PASS: y_a.json` the
rendered output still contains the explanatory DISABLED comment (and the
polarity comment), even though the entry is supported and carries no
`@Ignore` marker — refuting the claim that those comments are emitted only
when `supported` is false. -/
theorem c7_unconditional_comments_counterexample :
    (parseManifest [str "PASS: y_a.json"]).toOption.map
        (List.map TestEntry.supported) = some [true] ∧
    (generate (str "d") [str "PASS: y_a.json"]).toOption.map
        (fun out =>
          (out.contains (str "    // This test is currently DISABLED because the implementation is known not to pass it."),
           out.contains (str "    // This is a \"y\" test, so the file contains valid JSON."),
           out.contains (str "@Ignore"))) = some (true, true, false) := by
  constructor
  · decide
  · decide

/-- C7 (amended): in every rendered entry the `@Ignore` marker line is
present if and only if `supported` is false, while the explanatory
DISABLED comment and the polarity comment ("valid JSON" when the filename
starts with `y`, "invalid JSON" otherwise) are emitted unconditionally for
every entry, supported or not. -/
theorem c7_ignore_iff_unsupported (test_dir : List Nat) (t : TestEntry) :
    ((str "@Ignore") ∈ printTest test_dir t ↔ t.supported = false) ∧
    (str "    // This test is currently DISABLED because the implementation is known not to pass it.")
      ∈ printTest test_dir t ∧
    (str "    // This is a \"" ++ [t.yn] ++ str "\" test, so the file contains " ++
      (if t.yn = 121 then str "valid" else str "invalid") ++ str " JSON.")
      ∈ printTest test_dir t := by
  refine ⟨?_, ?_, ?_⟩
  · cases ht : t.supported with
    | true =>
      constructor
      · intro hmem
        exfalso
        simp only [printTest, ht, if_true, List.mem_append, List.mem_cons,
          List.not_mem_nil, or_false, false_or] at hmem
        rcases hmem with (h|h|h|h)|(h|h|h|h|h|h|h|h|h|h|h|h|h|h|h)
        all_goals first
          | exact absurd h (by decide)
          | exact ne_ignore_of_head 32 h rfl (by decide)
          | exact ne_ignore_of_head 112 h rfl (by decide)
      · intro hf
        exact Bool.noConfusion hf
    | false =>
      constructor
      · intro _
        rfl
      · intro _
        simp [printTest, ht]
  · simp [printTest]
  · simp [printTest]

theorem c7_ignore_iff_unsupported_witness :
    str "@Ignore" ∈
      printTest (str "d") ⟨false, 110, str "n_b.json", str "no", str "B", 1, []⟩ :=
  (c7_ignore_iff_unsupported (str "d")
      ⟨false, 110, str "n_b.json", str "no", str "B", 1, []⟩).1.mpr rfl

/-- C8: the manifest line `PASS: y_array_empty.json` renders method
`yesArrayEmpty` with no `@Ignore` marker and the `assertNull` form, and
`FAIL: n_object_trailing_comma.json` renders method
`noObjectTrailingComma` with an `@Ignore` marker and the `assertNotNull`
form. -/
theorem c8_concrete_examples :
    (generate (str "dir") [str "PASS: y_array_empty.json"]).toOption.map
        (fun out =>
          (out.contains (str "public void yesArrayEmpty() throws IOException \x7b"),
           out.contains (str "@Ignore"),
           out.contains (str "    assertNull(problem);"),
           out.contains (str "    assertNotNull(problem);"))) =
      some (true, false, true, false) ∧
    (generate (str "dir") [str "FAIL: n_object_trailing_comma.json"]).toOption.map
        (fun out =>
          (out.contains (str "public void noObjectTrailingComma() throws IOException \x7b"),
           out.contains (str "@Ignore"),
           out.contains (str "    assertNotNull(problem);"),
           out.contains (str "    assertNull(problem);"))) =
      some (true, true, true, false) := by
  constructor
  · decide
  · decide

end JJGen
